import Mathlib

/-!
Verification development for the Luminum server/client enrollment core.

The definitions below are shallow embeddings of the Rust sources
`src/server/src/main.rs` and `src/client/linux/src/main.rs`:
pure fragments become Lean functions, stateful fragments become explicit
effect traces, machine bytes become `Nat` values with explicit `< 256`
bounds, and fallible operations return `Option`.  External library calls
(openssl, serde, magic_crypt) are modelled at the interface the program
uses, parameterized where the library supplies an unknown but constrained
function (for example the AES block permutation).
-/

set_option maxHeartbeats 1000000

namespace Luminum

/-! ## Wire message envelopes (src/client/linux/src/main.rs lines 37-68) -/

/-- `struct MessageData` : the optional, action-dependent payload fields. -/
structure MessageData where
  serverkey : Option String
  hostname : Option String
  uid : Option String
  osplat : Option String
  osver : Option String
  ipv4 : Option String
  ipv6 : Option String
deriving DecidableEq, Repr

/-- `struct MessageContent` : the nested content of every envelope. -/
structure MessageContent where
  module : String
  status : String
  action : String
  data : Option MessageData
deriving DecidableEq, Repr

/-- `struct ClientMessage` : the client-to-server envelope. -/
structure ClientMessage where
  uid : String
  product : String
  version : String
  content : MessageContent
deriving DecidableEq, Repr

/-- `struct ServerMessage` : the server-to-client envelope. -/
structure ServerMessage where
  version : String
  content : MessageContent
deriving DecidableEq, Repr

/-- `const VER` in both binaries. -/
def VER : String := "0.0.1"

/-! ## Address classification regexes (src/client/linux/src/main.rs lines 209-216)

The client classifies the local socket address with
`^(\d{1,3}\.){3}\d{1,3}$` (IPv4) and `^([0-9a-fA-F]{1,4}:){7}[0-9a-fA-F]{1,4}$`
(IPv6).  Both regexes are `n` repetitions of a character-class group joined
by a separator character that is itself outside the class, so greedy
matching without backtracking decides them exactly; `matchGroups` below is
that matcher.  The regex crate's `\d` is Unicode-aware: it matches the
whole general category `Nd` (decimal number), not only ASCII `0-9`,
whereas the IPv6 class `[0-9a-fA-F]` is an explicit ASCII class. -/

/-- The code-point ranges of Unicode general category `Nd` (Unicode 15.0,
the table the regex crate bundles): ASCII digits, Arabic-Indic digits,
the Indic script digits, fullwidth digits, the mathematical digits, and
so on. -/
def ndRanges : List (Nat × Nat) :=
  [(0x30, 0x39), (0x660, 0x669), (0x6F0, 0x6F9), (0x7C0, 0x7C9),
   (0x966, 0x96F), (0x9E6, 0x9EF), (0xA66, 0xA6F), (0xAE6, 0xAEF),
   (0xB66, 0xB6F), (0xBE6, 0xBEF), (0xC66, 0xC6F), (0xCE6, 0xCEF),
   (0xD66, 0xD6F), (0xDE6, 0xDEF), (0xE50, 0xE59), (0xED0, 0xED9),
   (0xF20, 0xF29), (0x1040, 0x1049), (0x1090, 0x1099), (0x17E0, 0x17E9),
   (0x1810, 0x1819), (0x1946, 0x194F), (0x19D0, 0x19D9), (0x1A80, 0x1A89),
   (0x1A90, 0x1A99), (0x1B50, 0x1B59), (0x1BB0, 0x1BB9), (0x1C40, 0x1C49),
   (0x1C50, 0x1C59), (0xA620, 0xA629), (0xA8D0, 0xA8D9), (0xA900, 0xA909),
   (0xA9D0, 0xA9D9), (0xA9F0, 0xA9F9), (0xAA50, 0xAA59), (0xABF0, 0xABF9),
   (0xFF10, 0xFF19), (0x104A0, 0x104A9), (0x10D30, 0x10D39),
   (0x11066, 0x1106F), (0x110F0, 0x110F9), (0x11136, 0x1113F),
   (0x111D0, 0x111D9), (0x112F0, 0x112F9), (0x11450, 0x11459),
   (0x114D0, 0x114D9), (0x11650, 0x11659), (0x116C0, 0x116C9),
   (0x11730, 0x11739), (0x118E0, 0x118E9), (0x11950, 0x11959),
   (0x11C50, 0x11C59), (0x11D50, 0x11D59), (0x11DA0, 0x11DA9),
   (0x11F50, 0x11F59), (0x16A60, 0x16A69), (0x16AC0, 0x16AC9),
   (0x16B50, 0x16B59), (0x1D7CE, 0x1D7FF), (0x1E140, 0x1E149),
   (0x1E2F0, 0x1E2F9), (0x1E4F0, 0x1E4F9), (0x1E950, 0x1E959),
   (0x1FBF0, 0x1FBF9)]

/-- The `\d` character class of the regex crate: Unicode `\p{Nd}`. -/
def isDigitChar (c : Char) : Bool :=
  ndRanges.any fun r => decide (r.1 ≤ c.toNat) && decide (c.toNat ≤ r.2)

/-- The `[0-9a-fA-F]` character class. -/
def isHexChar (c : Char) : Bool :=
  c.isDigit || ('a' ≤ c && c ≤ 'f') || ('A' ≤ c && c ≤ 'F')

/-- Matcher for `n` groups of 1..maxLen class characters joined by `sep`,
anchored at both ends (the regexes use `^` and `$`). -/
def matchGroups (p : Char → Bool) (maxLen : Nat) (sep : Char) : Nat → List Char → Bool
  | 0, _ => false
  | 1, l =>
      let g := l.takeWhile p
      decide (1 ≤ g.length) && decide (g.length ≤ maxLen) && decide (l.dropWhile p = [])
  | n+2, l =>
      let g := l.takeWhile p
      decide (1 ≤ g.length) && decide (g.length ≤ maxLen) &&
        match l.dropWhile p with
        | c :: rest => c == sep && matchGroups p maxLen sep (n+1) rest
        | [] => false

/-- `ipv4_regex.is_match(&ip_address)` : line 211/215. -/
def ipv4_regex_match (s : String) : Bool := matchGroups isDigitChar 3 '.' 4 s.toList

/-- `ipv6_regex.is_match(&ip_address)` : line 212/216. -/
def ipv6_regex_match (s : String) : Bool := matchGroups isHexChar 4 ':' 8 s.toList

/-- Lines 213-216: `ipv4_address` / `ipv6_address` start empty and are set
to the socket address only when the corresponding regex matches. -/
def classifyAddress (ip : String) : String × String :=
  ((if ipv4_regex_match ip then ip else ""),
   (if ipv6_regex_match ip then ip else ""))

/-! ## Client registration decision (src/client/linux/src/main.rs lines 264-294) -/

/-- The client's flat `KEY -> VALUE` configuration store (`clientconfig`). -/
def ConfigStore := String → Option String

/-- Outcome of the startup registration check: either one `register`
frame is sent, or nothing is sent, or the process dies on a failed
`unwrap` of a missing `SVRKEY`. -/
inductive StartupSend where
  | sent (m : ClientMessage)
  | noSend
  | crashed
deriving DecidableEq, Repr

/-- Lines 264-294 of the client `main`: if `clientconfig` has no `UID`,
build the `register` message (hostname, `SVRKEY` via `unwrap`, placeholder
uid `"NONW"`, platform `"Linux"`, OS release, regex-classified IPv4/IPv6
of the local socket address) and hand it to `write_to_server`; otherwise
log the existing UID and send nothing. -/
def client_startup_register (cfg : ConfigStore) (endpointname osrelease ip_address : String) :
    StartupSend :=
  let ipv4_address := (classifyAddress ip_address).1
  let ipv6_address := (classifyAddress ip_address).2
  match cfg "UID" with
  | none =>
      match cfg "SVRKEY" with
      | some svrkey =>
          .sent
            { product := "Luminum Client"
              version := VER
              uid := "NONE"
              content :=
                { module := "Client Core"
                  status := "noreg"
                  action := "register"
                  data := some
                    { hostname := some endpointname
                      serverkey := some svrkey
                      uid := some "NONW"
                      osplat := some "Linux"
                      osver := some osrelease
                      ipv4 := some ipv4_address
                      ipv6 := some ipv6_address } } }
      | none => .crashed
  | some _ => .noSend

/-! ## Client handling of a register reply (src/client/linux/src/main.rs lines 226-244) -/

/-- What the background receive loop does with one deserialized
`ServerMessage`: persist a UID row into `CONFIG`, do nothing, or die on a
failed `.expect` while unwrapping the reply's `data`/`uid`. -/
inductive RecvOutcome where
  | persisted (uid : String)
  | nothingPersisted
  | crashed
deriving DecidableEq, Repr

/-- Lines 230-239: on `action == "register"` and `status == "OK"` the code
unwraps `content.data` and `data.uid` with `.expect` (dying when absent)
and inserts the carried UID into the config store; every other reply
changes nothing. -/
def client_recv_register (resp : ServerMessage) : RecvOutcome :=
  if resp.content.action = "register" then
    if resp.content.status = "OK" then
      match resp.content.data with
      | none => .crashed
      | some d =>
          match d.uid with
          | none => .crashed
          | some u => .persisted u
    else .nothingPersisted
  else .nothingPersisted

/-- A syntactically well-formed `register` reply with `status == "OK"`
whose `uid` field is present but empty. -/
def emptyUidReply : ServerMessage :=
  { version := VER
    content :=
      { module := "Client Core"
        status := "OK"
        action := "register"
        data := some
          { serverkey := none
            hostname := none
            uid := some ""
            osplat := none
            osver := none
            ipv4 := none
            ipv6 := none } } }

/-! ## Theorems for claims C3 and C4 -/

/-- Claim C3: at client startup a `register` action message carrying the
hostname, the shared enrollment key, the placeholder UID `"NONW"`, the OS
platform and version, and the regex-classified IPv4/IPv6 of the local
socket is sent exactly when the config store has no `UID`; a client whose
config store records a UID sends no registration message. -/
theorem c3_register_iff_unregistered (cfg : ConfigStore)
    (endpointname osrelease ip svrkey : String)
    (hsk : cfg "SVRKEY" = some svrkey) :
    (cfg "UID" = none →
      client_startup_register cfg endpointname osrelease ip =
        .sent
          { product := "Luminum Client"
            version := VER
            uid := "NONE"
            content :=
              { module := "Client Core"
                status := "noreg"
                action := "register"
                data := some
                  { hostname := some endpointname
                    serverkey := some svrkey
                    uid := some "NONW"
                    osplat := some "Linux"
                    osver := some osrelease
                    ipv4 := some (classifyAddress ip).1
                    ipv6 := some (classifyAddress ip).2 } } }) ∧
    (∀ u, cfg "UID" = some u →
      client_startup_register cfg endpointname osrelease ip = .noSend) := by
  constructor
  · intro hu
    simp [client_startup_register, hu, hsk]
  · intro u hu
    simp [client_startup_register, hu]

/-- A concrete configured-but-unregistered client store: `SVRKEY` present,
no `UID`. -/
def cfgNoUid : ConfigStore := fun k => if k = "SVRKEY" then some "tenantkey" else none

/-- A concrete already-registered client store. -/
def cfgWithUid : ConfigStore :=
  fun k => if k = "SVRKEY" then some "tenantkey" else if k = "UID" then some "42" else none

/-- Witness for claim C3 at concrete inputs: the unregistered store sends
the register frame and the registered store sends nothing. -/
theorem c3_register_iff_unregistered_witness :
    client_startup_register cfgNoUid "host1" "Debian 12" "192.168.1.1" =
      .sent
        { product := "Luminum Client"
          version := VER
          uid := "NONE"
          content :=
            { module := "Client Core"
              status := "noreg"
              action := "register"
              data := some
                { hostname := some "host1"
                  serverkey := some "tenantkey"
                  uid := some "NONW"
                  osplat := some "Linux"
                  osver := some "Debian 12"
                  ipv4 := some (classifyAddress "192.168.1.1").1
                  ipv6 := some (classifyAddress "192.168.1.1").2 } } } ∧
    client_startup_register cfgWithUid "host1" "Debian 12" "192.168.1.1" = .noSend :=
  ⟨(c3_register_iff_unregistered cfgNoUid "host1" "Debian 12" "192.168.1.1" "tenantkey"
      (by simp [cfgNoUid])).1 (by simp [cfgNoUid]),
   (c3_register_iff_unregistered cfgWithUid "host1" "Debian 12" "192.168.1.1" "tenantkey"
      (by simp [cfgWithUid])).2 "42" (by simp [cfgWithUid])⟩

/-- Claim C4, counterexample: the reply `emptyUidReply` has action
`register`, status `"OK"` and an empty (but present) `uid`, and the
receive loop persists that empty UID, contradicting the claim that a
reply with an empty UID persists nothing. -/
theorem c4_counterexample :
    emptyUidReply.content.action = "register" ∧
    emptyUidReply.content.status = "OK" ∧
    emptyUidReply.content.data.bind MessageData.uid = some "" ∧
    client_recv_register emptyUidReply = .persisted "" := by
  refine ⟨rfl, rfl, rfl, rfl⟩

/-- Claim C4 as amended: the client persists a UID iff the reply is a
`register` reply with `status == "OK"` carrying a present (possibly
empty) `uid` field; a `register` reply with any other status persists
nothing; a `register` reply with `status == "OK"` but absent `data` or
`uid` kills the receive thread on a failed `.expect`, persisting
nothing. -/
theorem c4_persist_amended (resp : ServerMessage) :
    (∀ u, client_recv_register resp = .persisted u ↔
      (resp.content.action = "register" ∧ resp.content.status = "OK" ∧
        ∃ d, resp.content.data = some d ∧ d.uid = some u)) ∧
    (resp.content.action = "register" → resp.content.status ≠ "OK" →
      client_recv_register resp = .nothingPersisted) ∧
    (resp.content.action = "register" → resp.content.status = "OK" →
      resp.content.data.bind MessageData.uid = none →
      client_recv_register resp = .crashed) := by
  refine ⟨?_, ?_, ?_⟩
  · intro u
    by_cases ha : resp.content.action = "register"
    · by_cases hs : resp.content.status = "OK"
      · match hd : resp.content.data with
        | none => simp [client_recv_register, ha, hs, hd]
        | some d =>
            match hu : d.uid with
            | none => simp [client_recv_register, ha, hs, hd, hu]
            | some v =>
                simp only [client_recv_register, ha, hs, hd, hu, if_true,
                  RecvOutcome.persisted.injEq, Option.some.injEq, true_and]
                constructor
                · intro h
                  exact ⟨d, rfl, by rw [hu, h]⟩
                · rintro ⟨d', hd', hu'⟩
                  cases hd'
                  rw [hu] at hu'
                  exact (Option.some.injEq _ _).mp hu'
      · simp [client_recv_register, ha, hs]
    · simp [client_recv_register, ha]
  · intro ha hs
    simp [client_recv_register, ha, hs]
  · intro ha hs hnone
    match hd : resp.content.data with
    | none => simp [client_recv_register, ha, hs, hd]
    | some d =>
        rw [hd] at hnone
        simp only [Option.some_bind] at hnone
        simp [client_recv_register, ha, hs, hd, hnone]

/-- A `register` reply with a rejection status. -/
def rejectedReply : ServerMessage :=
  { version := VER
    content :=
      { module := "Client Core"
        status := "ERR"
        action := "register"
        data := none } }

/-- Witness for the amended claim C4 at a concrete input: a rejected
`register` reply persists nothing. -/
theorem c4_persist_amended_witness :
    client_recv_register rejectedReply = .nothingPersisted :=
  (c4_persist_amended rejectedReply).2.1 rfl (by decide)

/-! ## Claim C9: the regexes against the spec's dot/colon-group description -/

/-- Groups joined by a single separator character: the shape
`group (sep group){n-1}` shared by both classification regexes. -/
def joinSep (sep : Char) : List (List Char) → List Char
  | [] => []
  | [g] => g
  | g :: g' :: gs => g ++ sep :: joinSep sep (g' :: gs)

/-- The spec's reading of the regexes: `l` is exactly `n` `sep`-separated
groups, each of 1..maxLen characters of the class `p`. -/
def GroupsSpec (p : Char → Bool) (maxLen : Nat) (sep : Char) (n : Nat) (l : List Char) : Prop :=
  ∃ gs : List (List Char), gs.length = n ∧
    (∀ g ∈ gs, g ≠ [] ∧ g.length ≤ maxLen ∧ ∀ c ∈ g, p c = true) ∧
    l = joinSep sep gs

theorem takeWhile_append_stop (p : Char → Bool) (g rest : List Char)
    (hg : ∀ c ∈ g, p c = true)
    (hrest : rest = [] ∨ ∃ c rest', rest = c :: rest' ∧ p c = false) :
    (g ++ rest).takeWhile p = g ∧ (g ++ rest).dropWhile p = rest := by
  induction g with
  | nil =>
      simp only [List.nil_append]
      rcases hrest with h | ⟨c, rest', rfl, hc⟩
      · subst h; simp
      · simp [List.takeWhile_cons, List.dropWhile_cons, hc]
  | cons a g ih =>
      have ha : p a = true := hg a (by simp)
      have ih' := ih (fun c hc => hg c (by simp [hc]))
      simp [List.takeWhile_cons, List.dropWhile_cons, ha, ih'.1, ih'.2]

theorem matchGroups_iff (p : Char → Bool) (maxLen : Nat) (sep : Char)
    (hsep : p sep = false) :
    ∀ n, 0 < n → ∀ l, matchGroups p maxLen sep n l = true ↔ GroupsSpec p maxLen sep n l
  | 0, h, _ => absurd h (by omega)
  | 1, _, l => by
      simp only [matchGroups, Bool.and_eq_true, decide_eq_true_eq]
      constructor
      · rintro ⟨⟨h1, h2⟩, h3⟩
        refine ⟨[l.takeWhile p], rfl, ?_, ?_⟩
        · intro g hgm
          rw [List.mem_singleton] at hgm
          subst hgm
          exact ⟨by intro h0; rw [h0] at h1; simp at h1, h2,
            fun c hc => List.mem_takeWhile_imp hc⟩
        · conv_lhs => rw [← List.takeWhile_append_dropWhile (p := p) (l := l)]
          rw [h3]
          simp [joinSep]
      · rintro ⟨gs, hlen, hcond, rfl⟩
        match gs with
        | [g] =>
            have hc := hcond g (by simp)
            have hsplit := takeWhile_append_stop p g [] (fun c hc' => hc.2.2 c hc') (Or.inl rfl)
            simp only [List.append_nil] at hsplit
            simp only [joinSep, hsplit.1, hsplit.2]
            exact ⟨⟨List.length_pos.mpr hc.1, hc.2.1⟩, trivial⟩
  | n+2, _, l => by
      have ih := matchGroups_iff p maxLen sep hsep (n+1) (by omega)
      simp only [matchGroups, Bool.and_eq_true, decide_eq_true_eq]
      constructor
      · rintro ⟨⟨h1, h2⟩, h3⟩
        match hdw : l.dropWhile p with
        | [] => rw [hdw] at h3; simp at h3
        | c :: rest =>
            rw [hdw] at h3
            simp only [Bool.and_eq_true, beq_iff_eq] at h3
            obtain ⟨rfl, hm⟩ := h3
            obtain ⟨gs', hlen', hcond', rfl⟩ := (ih rest).mp hm
            refine ⟨l.takeWhile p :: gs', by simp [hlen'], ?_, ?_⟩
            · intro g hgm
              rcases List.mem_cons.mp hgm with rfl | hgm'
              · exact ⟨by intro h0; rw [h0] at h1; simp at h1, h2,
                  fun c' hc' => List.mem_takeWhile_imp hc'⟩
              · exact hcond' g hgm'
            · conv_lhs => rw [← List.takeWhile_append_dropWhile (p := p) (l := l)]
              rw [hdw]
              match gs', hlen' with
              | g₂ :: gs₂, _ => simp [joinSep]
      · rintro ⟨gs, hlen, hcond, rfl⟩
        match gs with
        | g :: g₂ :: gs₂ =>
            have hcg := hcond g (by simp)
            have hsplit := takeWhile_append_stop p g (sep :: joinSep sep (g₂ :: gs₂))
              (fun c hc' => hcg.2.2 c hc') (Or.inr ⟨sep, _, rfl, hsep⟩)
            simp only [joinSep] at hsplit ⊢
            rw [hsplit.1, hsplit.2]
            refine ⟨⟨List.length_pos.mpr hcg.1, hcg.2.1⟩, ?_⟩
            simp only [Bool.and_eq_true, beq_self_eq_true, true_and]
            exact (ih _).mpr ⟨g₂ :: gs₂, by simpa using hlen, fun g' hg' => hcond g' (by simp [hg']), rfl⟩

/-- The ASCII-only digit class `0-9`: the reading of "digits" in the
original claim, whose IPv6 clause spells out the ASCII class
`[0-9a-fA-F]` explicitly. -/
def asciiDigitChar (c : Char) : Bool := decide ('0' ≤ c) && decide (c ≤ '9')

/-- Claim C9, counterexample: the regex crate's `\d` is Unicode `\p{Nd}`,
so the Arabic-Indic digit string `"١٢٣.١.١.١"`
is classified IPv4 by the code although it is not four dot-separated
groups of 1-3 (ASCII) digits — the claimed "if and only if" fails
there. -/
theorem c9_unicode_digit_counterexample :
    ipv4_regex_match "١٢٣.١.١.١" = true ∧
    ¬ GroupsSpec asciiDigitChar 3 '.' 4
        (String.toList "١٢٣.١.١.١") := by
  constructor
  · decide
  · intro hspec
    have h := (matchGroups_iff asciiDigitChar 3 '.' (by decide) 4 (by omega)
      (String.toList "١٢٣.١.١.١")).mpr hspec
    exact absurd h (by decide)

/-- Claim C9 as amended: the client marks a string IPv4 iff it is four
dot-separated groups of 1-3 Unicode decimal digits (`\p{Nd}`, the regex
crate's `\d`) and IPv6 iff it is eight colon-separated groups of 1-4
ASCII hex digits; a string matching neither leaves both payload address
fields blank; and the three concrete examples classify as stated. -/
theorem c9_address_classification_amended (s : String) :
    (ipv4_regex_match s = true ↔ GroupsSpec isDigitChar 3 '.' 4 s.toList) ∧
    (ipv6_regex_match s = true ↔ GroupsSpec isHexChar 4 ':' 8 s.toList) ∧
    (ipv4_regex_match s = false → ipv6_regex_match s = false →
      classifyAddress s = ("", "")) ∧
    (ipv4_regex_match "192.168.1.1" = true ∧ ipv6_regex_match "192.168.1.1" = false) ∧
    (ipv6_regex_match "fe80:0:0:0:0:0:0:1" = true ∧
      ipv4_regex_match "fe80:0:0:0:0:0:0:1" = false) ∧
    (ipv4_regex_match "not-an-address" = false ∧
      ipv6_regex_match "not-an-address" = false) := by
  refine ⟨matchGroups_iff isDigitChar 3 '.' (by decide) 4 (by omega) s.toList,
          matchGroups_iff isHexChar 4 ':' (by decide) 8 (by omega) s.toList,
          ?_, by decide, by decide, by decide⟩
  intro h4 h6
  simp [classifyAddress, h4, h6]

/-- Witness for the amended claim C9 at a concrete input:
`"not-an-address"` matches neither class, so both payload fields stay
blank. -/
theorem c9_address_classification_amended_witness :
    classifyAddress "not-an-address" = ("", "") :=
  (c9_address_classification_amended "not-an-address").2.2.1 (by decide) (by decide)

/-! ## Claim C10: setup bind-address validation (src/server/src/main.rs 558-571)

`is_valid_ipv4_address` / `is_valid_ipv6_address` string-compare against
one loopback spelling each and otherwise defer to Rust's
`str::parse::<Ipv4Addr>` / `str::parse::<Ipv6Addr>`.  The functions below
model `core::net::parser`: `read_number` (checked arithmetic against the
carrier type's size, an optional digit limit, optional leading-zero
rejection), `read_ipv4_addr` (four dot-separated decimal u8 groups of at
most 3 digits, no redundant leading zero) and `read_ipv6_addr` (up to
eight colon-separated u16 hex groups of at most 4 digits with leading
zeros allowed, `::` compression, and a trailing embedded IPv4 pair).
`parse` succeeds only when the whole string is consumed. -/

/-- `char::to_digit(radix)`. -/
def to_digit (radix : Nat) (c : Char) : Option Nat :=
  let v :=
    if '0' ≤ c ∧ c ≤ '9' then some (c.toNat - '0'.toNat)
    else if 'a' ≤ c ∧ c ≤ 'z' then some (c.toNat - 'a'.toNat + 10)
    else if 'A' ≤ c ∧ c ≤ 'Z' then some (c.toNat - 'A'.toNat + 10)
    else none
  match v with
  | some d => if d < radix then some d else none
  | none => none

/-- Digit loop of `read_number`: `bound` is the carrier type's size, so a
`checked_mul`/`checked_add` reaching `bound` fails; with
`maxDigits = some m`, reading more than `m` digits fails the whole read.
Returns the value, the digit count and the unconsumed input. -/
def read_number_go (radix bound : Nat) (maxDigits : Option Nat) :
    Nat → Nat → List Char → Option (Nat × Nat × List Char)
  | res, cnt, [] => some (res, cnt, [])
  | res, cnt, c :: rest =>
      match to_digit radix c with
      | none => some (res, cnt, c :: rest)
      | some d =>
          if res * radix ≥ bound then none
          else if res * radix + d ≥ bound then none
          else
            match maxDigits with
            | some m =>
                if cnt + 1 > m then none
                else read_number_go radix bound maxDigits (res * radix + d) (cnt + 1) rest
            | none => read_number_go radix bound maxDigits (res * radix + d) (cnt + 1) rest

/-- `Parser::read_number`. -/
def read_number (radix bound : Nat) (maxDigits : Option Nat) (allowZeroPrefix : Bool)
    (l : List Char) : Option (Nat × List Char) :=
  let hasLeadingZero : Bool := match l with | c :: _ => c == '0' | [] => false
  match read_number_go radix bound maxDigits 0 0 l with
  | none => none
  | some (res, cnt, rest) =>
      if cnt = 0 then none
      else if !allowZeroPrefix && hasLeadingZero && decide (cnt > 1) then none
      else some (res, rest)

/-- `Parser::read_given_char`. -/
def read_given_char (c : Char) : List Char → Option (List Char)
  | c' :: rest => if c' = c then some rest else none
  | [] => none

/-- `Parser::read_ipv4_addr`: four `.`-separated decimal u8 groups. -/
def read_ipv4_addr (l : List Char) : Option ((Nat × Nat × Nat × Nat) × List Char) :=
  match read_number 10 256 (some 3) false l with
  | none => none
  | some (a, l1) =>
      match read_given_char '.' l1 with
      | none => none
      | some l2 =>
          match read_number 10 256 (some 3) false l2 with
          | none => none
          | some (b, l3) =>
              match read_given_char '.' l3 with
              | none => none
              | some l4 =>
                  match read_number 10 256 (some 3) false l4 with
                  | none => none
                  | some (c, l5) =>
                      match read_given_char '.' l5 with
                      | none => none
                      | some l6 =>
                          match read_number 10 256 (some 3) false l6 with
                          | none => none
                          | some (d, l7) => some ((a, b, c, d), l7)

/-- `Parser::read_separator(sep, i, inner)`: when `i > 0` first consume
`sep`; atomic, so on failure the caller keeps its original input. -/
def read_sep_then {α : Type} (sep : Char) (i : Nat) (inner : List Char → Option α)
    (l : List Char) : Option α :=
  if i > 0 then
    match read_given_char sep l with
    | none => none
    | some l' => inner l'
  else inner l

/-- `read_groups` of `read_ipv6_addr`: reads up to `slotsLeft` further
16-bit hex groups into `acc` (`slotsLeft` is `limit - i` of the Rust
loop, so the loop guard `i < limit` is `slotsLeft > 0` and the
embedded-IPv4 guard `i < limit - 1` is `slotsLeft ≥ 2`); at any position
with at least two slots remaining it first tries a trailing embedded IPv4
address, which fills two groups and stops with the flag set.  Returns the
groups, the embedded-IPv4 flag and the unconsumed input. -/
def read_groups : Nat → Nat → List Nat → List Char → List Nat × Bool × List Char
  | 0, _, acc, l => (acc, false, l)
  | slotsLeft + 1, i, acc, l =>
      match (if slotsLeft + 1 ≥ 2 then read_sep_then ':' i read_ipv4_addr l else none) with
      | some ((o1, o2, o3, o4), rest) =>
          (acc ++ [o1 * 256 + o2, o3 * 256 + o4], true, rest)
      | none =>
          match read_sep_then ':' i (read_number 16 65536 (some 4) true) l with
          | some (g, rest) => read_groups slotsLeft (i + 1) (acc ++ [g]) rest
          | none => (acc, false, l)

/-- `Parser::read_ipv6_addr`. -/
def read_ipv6_addr (l : List Char) : Option (List Nat × List Char) :=
  match read_groups 8 0 [] l with
  | (head, headV4, l1) =>
      if head.length = 8 then some (head, l1)
      else if headV4 then none
      else
        match read_given_char ':' l1 with
        | none => none
        | some l2 =>
            match read_given_char ':' l2 with
            | none => none
            | some l3 =>
                match read_groups (8 - (head.length + 1)) 0 [] l3 with
                | (tail, _, l4) =>
                    some (head ++ List.replicate (8 - head.length - tail.length) 0 ++ tail, l4)

/-- `ip.parse::<Ipv4Addr>().is_ok()`: parse requiring full consumption. -/
def parse_ipv4 (s : String) : Bool :=
  match read_ipv4_addr s.toList with
  | some (_, []) => true
  | _ => false

/-- `ip.parse::<Ipv6Addr>().is_ok()`: parse requiring full consumption. -/
def parse_ipv6 (s : String) : Bool :=
  match read_ipv6_addr s.toList with
  | some (_, []) => true
  | _ => false

/-- src/server/src/main.rs lines 558-563. -/
def is_valid_ipv4_address (ip : String) : Bool :=
  if ip ≠ "127.0.0.1" then parse_ipv4 ip else false

/-- src/server/src/main.rs lines 566-571. -/
def is_valid_ipv6_address (ip : String) : Bool :=
  if ip ≠ "0:0:0:0:0:0:0:1" ∧ ip ≠ "::1" then parse_ipv6 ip else false

/-- Line 396: the setup loop accepts an entered bind address exactly when
one of the two validators accepts it. -/
def setup_address_accepted (ip : String) : Bool :=
  is_valid_ipv4_address ip || is_valid_ipv6_address ip

/-- Claim C10: a bind address is accepted iff it parses as IPv4 or IPv6
and is not one of the exact strings `"127.0.0.1"`, `"0:0:0:0:0:0:0:1"`,
`"::1"`; differently spelled loopback addresses such as `"127.0.0.2"` and
the fully expanded `"0000:0000:0000:0000:0000:0000:0000:0001"` are
accepted. -/
theorem c10_bind_address_validation (s : String) :
    (setup_address_accepted s = true ↔
      ((parse_ipv4 s = true ∨ parse_ipv6 s = true) ∧
        s ≠ "127.0.0.1" ∧ s ≠ "0:0:0:0:0:0:0:1" ∧ s ≠ "::1")) ∧
    setup_address_accepted "127.0.0.2" = true ∧
    setup_address_accepted "0000:0000:0000:0000:0000:0000:0000:0001" = true := by
  refine ⟨?_, by decide, by decide⟩
  by_cases h1 : s = "127.0.0.1"
  · subst h1; decide
  · by_cases h2 : s = "0:0:0:0:0:0:0:1"
    · subst h2; decide
    · by_cases h3 : s = "::1"
      · subst h3; decide
      · simp [setup_address_accepted, is_valid_ipv4_address, is_valid_ipv6_address,
          h1, h2, h3]

/-! ## File paths (src/server/src/main.rs lines 38-42) -/

def DKPATH : String := "/opt/Luminum/LuminumServer/config/luminum.key"
def DPPATH : String := "/opt/Luminum/LuminumServer/config/luminum.pub"
def DCPATH : String := "/opt/Luminum/LuminumServer/config/luminum.crt"
def DIPATH : String := "/opt/Luminum/LuminumServer/config/luminum.pfx"

/-! ## Claim C8: generate_certificate (src/server/src/main.rs 591-686) -/

/-- `openssl::hash::MessageDigest` values the builder could sign with. -/
inductive MsgDigest where
  | md5
  | sha1
  | sha256
  | sha512
deriving DecidableEq, Repr

/-- An X.509 name as assembled by `X509NameBuilder` from the five
prompted subject fields (lines 647-652). -/
structure X509Name where
  country : String
  stateOrProvince : String
  locality : String
  organization : String
  commonName : String
deriving DecidableEq, Repr

/-- The certificate assembled by the `X509` builder calls, over an
abstract type `K` of openssl `PKey` key material. -/
structure X509Cert (K : Type) where
  version : Nat
  serialNumber : Nat
  subjectName : X509Name
  issuerName : X509Name
  pubkey : K
  notBefore : Nat
  notAfter : Nat
  signingKey : K
  signatureDigest : MsgDigest
deriving DecidableEq, Repr

/-- `Asn1Time::days_from_now(n)` in seconds, `now` being the time of the
call. -/
def days_from_now (now n : Nat) : Nat := now + n * 86400

/-- Lines 643-670 of `generate_certificate`: a serial drawn by
`BigNum::rand(159, MAYBE_ZERO, false)` (`rand159` is the value the RNG
returned), subject and issuer both set to the one prompted name, validity
window `[days_from_now 0, days_from_now 365]`, signed with the loaded
private key using `MessageDigest::sha256()`. -/
def generate_certificate {K : Type} (now rand159 : Nat) (name : X509Name)
    (prv_key pub_key : K) : X509Cert K :=
  let serial_number := rand159
  { version := 2
    serialNumber := serial_number
    subjectName := name
    issuerName := name
    pubkey := pub_key
    notBefore := days_from_now now 0
    notAfter := days_from_now now 365
    signingKey := prv_key
    signatureDigest := .sha256 }

/-- Claim C8: immediately after `generate_certificate`, not-before ≤ now
≤ not-after with a validity window of exactly 365 days, the certificate
carries the random serial (below `2^159`, the contract of
`BigNum::rand(159, MAYBE_ZERO, false)`), is signed with the private key
using SHA-256, and its issuer equals its subject. -/
theorem c8_certificate_validity {K : Type} (now rand159 : Nat)
    (hrand : rand159 < 2 ^ 159) (name : X509Name) (prv_key pub_key : K) :
    (generate_certificate now rand159 name prv_key pub_key).notBefore ≤ now ∧
    now ≤ (generate_certificate now rand159 name prv_key pub_key).notAfter ∧
    (generate_certificate now rand159 name prv_key pub_key).notAfter -
      (generate_certificate now rand159 name prv_key pub_key).notBefore = 365 * 86400 ∧
    (generate_certificate now rand159 name prv_key pub_key).serialNumber = rand159 ∧
    (generate_certificate now rand159 name prv_key pub_key).serialNumber < 2 ^ 159 ∧
    (generate_certificate now rand159 name prv_key pub_key).signatureDigest = .sha256 ∧
    (generate_certificate now rand159 name prv_key pub_key).signingKey = prv_key ∧
    (generate_certificate now rand159 name prv_key pub_key).issuerName =
      (generate_certificate now rand159 name prv_key pub_key).subjectName := by
  refine ⟨?_, ?_, ?_, rfl, hrand, rfl, rfl, rfl⟩ <;>
    simp [generate_certificate, days_from_now]

/-- A concrete subject name for the C8 witness. -/
def sampleName : X509Name :=
  { country := "US"
    stateOrProvince := "Florida"
    locality := "Tampa"
    organization := "Accipiter"
    commonName := "luminum" }

/-- Witness for claim C8 at concrete inputs. -/
theorem c8_certificate_validity_witness :
    (generate_certificate 1700000000 7 sampleName 1 2).notBefore ≤ 1700000000 ∧
    1700000000 ≤ (generate_certificate 1700000000 7 sampleName 1 2).notAfter ∧
    (generate_certificate 1700000000 7 sampleName 1 2).notAfter -
      (generate_certificate 1700000000 7 sampleName 1 2).notBefore = 365 * 86400 ∧
    (generate_certificate 1700000000 7 sampleName 1 2).serialNumber = 7 ∧
    (generate_certificate 1700000000 7 sampleName 1 2).serialNumber < 2 ^ 159 ∧
    (generate_certificate 1700000000 7 sampleName 1 2).signatureDigest = .sha256 ∧
    (generate_certificate 1700000000 7 sampleName 1 2).signingKey = 1 ∧
    (generate_certificate 1700000000 7 sampleName 1 2).issuerName =
      (generate_certificate 1700000000 7 sampleName 1 2).subjectName :=
  c8_certificate_validity 1700000000 7 (by norm_num) sampleName 1 2

/-! ## Claim C6: generate_private_key (src/server/src/main.rs 574-588) -/

/-- The symmetric cipher handed to
`private_key_to_pem_pkcs8_passphrase` (`openssl::symm::Cipher`). -/
inductive SymCipher where
  | aes_128_cbc
  | aes_256_cbc
  | des_ede3_cbc
deriving DecidableEq, Repr

/-- The openssl serializations available for the freshly generated
2048-bit RSA `PKey`, abstract in this embedding: `privPkcs8` is the
cleartext PKCS#8 PEM, `pubPem` the public-key PEM, and
`privPkcs8Passphrase c pass` the PKCS#8 PEM encrypted with cipher `c`
under passphrase `pass`. -/
structure PKeyOps where
  privPkcs8 : List Nat
  pubPem : List Nat
  privPkcs8Passphrase : SymCipher → String → List Nat

/-- One `write_all` into a file opened with `File::create`. -/
structure FsWrite where
  path : String
  content : List Nat
deriving DecidableEq, Repr

/-- Lines 574-588: the file writes `generate_private_key` performs.  The
cleartext `prv_key` serialization of line 581 is computed but never
written anywhere; the private-key file receives only the AES-256-CBC
passphrase-encrypted PKCS#8 and the public-key file the public PEM. -/
def generate_private_key (pkey : PKeyOps) (ui_keypass : String) : List FsWrite :=
  let _prv_key := pkey.privPkcs8
  let pub_key := pkey.pubPem
  let encrypted_key := pkey.privPkcs8Passphrase SymCipher.aes_256_cbc ui_keypass
  [{ path := DKPATH, content := encrypted_key },
   { path := DPPATH, content := pub_key }]

/-- Claim C6: every write `generate_private_key` performs goes to the
private-key or public-key path; the private-key file receives exactly the
PKCS#8 serialization encrypted under the supplied passphrase with
AES-256-CBC, and the public-key file only the public PEM — in particular
the cleartext private key is never written. -/
theorem c6_private_key_never_plaintext (pkey : PKeyOps) (ui_keypass : String)
    (w : FsWrite) (hw : w ∈ generate_private_key pkey ui_keypass) :
    (w.path = DKPATH →
      w.content = pkey.privPkcs8Passphrase SymCipher.aes_256_cbc ui_keypass) ∧
    (w.path = DPPATH → w.content = pkey.pubPem) ∧
    (w.path = DKPATH ∨ w.path = DPPATH) := by
  simp only [generate_private_key, List.mem_cons, List.not_mem_nil, or_false] at hw
  rcases hw with rfl | rfl
  · exact ⟨fun _ => rfl, fun hp => by simp [DKPATH, DPPATH] at hp, Or.inl rfl⟩
  · exact ⟨fun hp => by simp [DKPATH, DPPATH] at hp, fun _ => rfl, Or.inr rfl⟩

/-- A concrete stand-in for the openssl serializations of one key. -/
def samplePKey : PKeyOps :=
  { privPkcs8 := [1, 2, 3]
    pubPem := [4, 5]
    privPkcs8Passphrase := fun _ pass => [6, 7] ++ pass.toList.map Char.toNat }

/-- The private-key write of `generate_private_key samplePKey "pw"`. -/
def sampleKeyWrite : FsWrite :=
  { path := DKPATH
    content := samplePKey.privPkcs8Passphrase SymCipher.aes_256_cbc "pw" }

/-- Witness for claim C6 at a concrete input. -/
theorem c6_private_key_never_plaintext_witness :
    sampleKeyWrite ∈ generate_private_key samplePKey "pw" ∧
    ((sampleKeyWrite.path = DKPATH →
        sampleKeyWrite.content =
          samplePKey.privPkcs8Passphrase SymCipher.aes_256_cbc "pw") ∧
      (sampleKeyWrite.path = DPPATH → sampleKeyWrite.content = samplePKey.pubPem) ∧
      (sampleKeyWrite.path = DKPATH ∨ sampleKeyWrite.path = DPPATH)) :=
  ⟨by simp [generate_private_key, sampleKeyWrite],
   c6_private_key_never_plaintext samplePKey "pw" sampleKeyWrite
     (by simp [generate_private_key, sampleKeyWrite])⟩

/-! ## Claim C7: key-rotation backups in daemonsetup (src/server/src/main.rs 462-531) -/

/-- Observable steps of the re-setup rotation flow. -/
inductive SetupEvent where
  | removeFile (p : String)
  | renameFile (src dst : String)
  | exitFail
  | genPrivateKey
  | genCertificate
  | genIdentityBundle
deriving DecidableEq, Repr

/-- Filesystem facts the rotation flow depends on: whether each `.old`
backup already exists (those are deleted first, lines 468-471) and
whether each `fs::rename` succeeds (lines 473-508). -/
structure RotationEnv where
  oldKeyExists : Bool
  oldPubExists : Bool
  oldCrtExists : Bool
  oldPfxExists : Bool
  renameKeyOk : Bool
  renamePubOk : Bool
  renameCrtOk : Bool
  renamePfxOk : Bool
deriving DecidableEq, Repr

/-- Lines 468-471: delete stale `.old` backups that are in the way. -/
def rotation_removes (e : RotationEnv) : List SetupEvent :=
  (if e.oldKeyExists then [.removeFile (DKPATH ++ ".old")] else []) ++
  (if e.oldPubExists then [.removeFile (DPPATH ++ ".old")] else []) ++
  (if e.oldCrtExists then [.removeFile (DCPATH ++ ".old")] else []) ++
  (if e.oldPfxExists then [.removeFile (DIPATH ++ ".old")] else [])

/-- Lines 462-531, the "do not reuse the existing key" branch of
`daemonsetup`: delete stale backups, rename the four artifacts to their
`.old` siblings exiting the process with code 1 on the first failed
rename, and only after all four renames succeed regenerate the key pair
and then — the certificate path having just been renamed away — the
certificate and the PKCS#12 identity bundle. -/
def daemonsetup_rotation (e : RotationEnv) : List SetupEvent :=
  rotation_removes e ++
  (if e.renameKeyOk then
    .renameFile DKPATH (DKPATH ++ ".old") ::
    (if e.renamePubOk then
      .renameFile DPPATH (DPPATH ++ ".old") ::
      (if e.renameCrtOk then
        .renameFile DCPATH (DCPATH ++ ".old") ::
        (if e.renamePfxOk then
          [.renameFile DIPATH (DIPATH ++ ".old"),
           .genPrivateKey, .genCertificate, .genIdentityBundle]
         else [.exitFail])
       else [.exitFail])
     else [.exitFail])
   else [.exitFail])

/-- Claim C7: if any of the four backup renames fails, the rotation trace
contains no regeneration step at all and ends in the failure exit; when
all four succeed, the four renames all happen before any regeneration
step. -/
theorem c7_rotation_backs_up_before_regen (e : RotationEnv) :
    ((e.renameKeyOk = false ∨ e.renamePubOk = false ∨ e.renameCrtOk = false ∨
        e.renamePfxOk = false) →
      SetupEvent.genPrivateKey ∉ daemonsetup_rotation e ∧
      SetupEvent.genCertificate ∉ daemonsetup_rotation e ∧
      SetupEvent.genIdentityBundle ∉ daemonsetup_rotation e ∧
      (daemonsetup_rotation e).getLast? = some .exitFail) ∧
    (e.renameKeyOk = true → e.renamePubOk = true → e.renameCrtOk = true →
      e.renamePfxOk = true →
      daemonsetup_rotation e =
        rotation_removes e ++
          [.renameFile DKPATH (DKPATH ++ ".old"),
           .renameFile DPPATH (DPPATH ++ ".old"),
           .renameFile DCPATH (DCPATH ++ ".old"),
           .renameFile DIPATH (DIPATH ++ ".old"),
           .genPrivateKey, .genCertificate, .genIdentityBundle]) := by
  obtain ⟨ok, op, oc, opf, rk, rp, rc, rpf⟩ := e
  cases ok <;> cases op <;> cases oc <;> cases opf <;>
    cases rk <;> cases rp <;> cases rc <;> cases rpf <;> decide

/-- A rotation run whose public-key backup rename fails. -/
def failEnv : RotationEnv :=
  { oldKeyExists := true, oldPubExists := false, oldCrtExists := false
    oldPfxExists := false, renameKeyOk := true, renamePubOk := false
    renameCrtOk := true, renamePfxOk := true }

/-- A rotation run in which every backup rename succeeds. -/
def okEnv : RotationEnv :=
  { oldKeyExists := false, oldPubExists := false, oldCrtExists := false
    oldPfxExists := false, renameKeyOk := true, renamePubOk := true
    renameCrtOk := true, renamePfxOk := true }

/-- Witness for claim C7 at concrete inputs: a failed rename aborts with
no regeneration, and a clean run performs all renames before
regenerating. -/
theorem c7_rotation_backs_up_before_regen_witness :
    (SetupEvent.genPrivateKey ∉ daemonsetup_rotation failEnv ∧
      SetupEvent.genCertificate ∉ daemonsetup_rotation failEnv ∧
      SetupEvent.genIdentityBundle ∉ daemonsetup_rotation failEnv ∧
      (daemonsetup_rotation failEnv).getLast? = some .exitFail) ∧
    daemonsetup_rotation okEnv =
      rotation_removes okEnv ++
        [.renameFile DKPATH (DKPATH ++ ".old"),
         .renameFile DPPATH (DPPATH ++ ".old"),
         .renameFile DCPATH (DCPATH ++ ".old"),
         .renameFile DIPATH (DIPATH ++ ".old"),
         .genPrivateKey, .genCertificate, .genIdentityBundle] :=
  ⟨(c7_rotation_backs_up_before_regen failEnv).1 (Or.inr (Or.inl rfl)),
   (c7_rotation_backs_up_before_regen okEnv).2 rfl rfl rfl rfl⟩

/-! ## Claims C1 and C2: the server's receive path
(src/server/src/main.rs lines 328-361) and the client's send path
(src/client/linux/src/main.rs lines 320-324). -/

/-- A `serde_json::Value`.  Numbers keep their source text: the server
never inspects numeric values, only compares against strings. -/
inductive Json where
  | null
  | bool (b : Bool)
  | num (text : String)
  | str (s : String)
  | arr (elems : List Json)
  | obj (fields : List (String × Json))

/-- Key lookup in a JSON object's field list. -/
def jsonLookup : List (String × Json) → String → Option Json
  | [], _ => none
  | (k, v) :: rest, key => if k = key then some v else jsonLookup rest key

/-- `Value::index` with a string key (`v["product"]`): member of an
object, `Null` for a missing member or a non-object. -/
def jsonIndexStr (v : Json) (key : String) : Json :=
  match v with
  | .obj fields => (jsonLookup fields key).getD .null
  | _ => .null

/-- `Value::get` with a string key: `Some` member of an object, `None`
otherwise. -/
def jsonGet (v : Json) (key : String) : Option Json :=
  match v with
  | .obj fields => jsonLookup fields key
  | _ => none

/-- `Value == &str` (serde_json `PartialEq<str>`): true exactly on a
string value with equal contents. -/
def json_eq_str (v : Json) (s : String) : Bool :=
  match v with
  | .str s' => s' == s
  | _ => false

/-- Externally visible actions the server's per-connection code could
take: print a JSON value, log the malformed-data warning naming the
peer, send a reply frame back down the TLS stream, or write a row into
the CLIENTS database. -/
inductive SrvEffect where
  | printValue (v : Json)
  | logWarn (peer : String)
  | sendReply (m : ServerMessage)
  | dbWrite (k v : String)

/-- src/server/src/main.rs lines 346-361, with `serde_json::from_str`
supplied as the parameter `from_str` (it is library code; claim C1 holds
for every parser behavior and claim C2 for any parser respecting the
JSON grammar).  On a parse error the code only logs the malformed-data
warning; on success it prints `v["data"]["content"]` when `v["product"]`
equals `"Luminum Client"` and that member exists.  No branch builds a
reply or touches the database. -/
def handle_json (from_str : String → Option Json) (peer_addr data : String) :
    List SrvEffect :=
  match from_str data with
  | some v =>
      if json_eq_str (jsonIndexStr v "product") "Luminum Client" then
        match jsonGet (jsonIndexStr v "data") "content" with
        | some content => [.printValue content]
        | none => []
      else []
  | none => [.logWarn peer_addr]

/-- `U+FFFD`, the replacement character. -/
def replacementChar : Char := Char.ofNat 0xFFFD

/-- A UTF-8 continuation byte. -/
def isCont (b : Nat) : Bool := decide (0x80 ≤ b) && decide (b ≤ 0xBF)

/-- Allowed first continuation byte after the 3- and 4-byte lead bytes
(rejecting overlong encodings and surrogates, as Rust does). -/
def validFirstCont (lead b : Nat) : Bool :=
  if lead = 0xE0 then decide (0xA0 ≤ b) && decide (b ≤ 0xBF)
  else if lead = 0xED then decide (0x80 ≤ b) && decide (b ≤ 0x9F)
  else if lead = 0xF0 then decide (0x90 ≤ b) && decide (b ≤ 0xBF)
  else if lead = 0xF4 then decide (0x80 ≤ b) && decide (b ≤ 0x8F)
  else isCont b

/-- `String::from_utf8_lossy`, fuelled (the fuel is the input length; at
least one byte is consumed per step).  Each invalid sequence becomes one
`U+FFFD`, skipping the invalid prefix as Rust's decoder does. -/
def utf8_lossy_go : Nat → List Nat → List Char
  | 0, _ => []
  | _, [] => []
  | fuel + 1, b :: rest =>
      if b < 0x80 then Char.ofNat b :: utf8_lossy_go fuel rest
      else if 0xC2 ≤ b ∧ b ≤ 0xDF then
        match rest with
        | [] => [replacementChar]
        | c1 :: r1 =>
            if isCont c1 then
              Char.ofNat ((b - 0xC0) * 64 + (c1 - 0x80)) :: utf8_lossy_go fuel r1
            else replacementChar :: utf8_lossy_go fuel rest
      else if 0xE0 ≤ b ∧ b ≤ 0xEF then
        match rest with
        | [] => [replacementChar]
        | c1 :: r1 =>
            if validFirstCont b c1 then
              match r1 with
              | [] => [replacementChar]
              | c2 :: r2 =>
                  if isCont c2 then
                    Char.ofNat ((b - 0xE0) * 4096 + (c1 - 0x80) * 64 + (c2 - 0x80)) ::
                      utf8_lossy_go fuel r2
                  else replacementChar :: utf8_lossy_go fuel r1
            else replacementChar :: utf8_lossy_go fuel rest
      else if 0xF0 ≤ b ∧ b ≤ 0xF4 then
        match rest with
        | [] => [replacementChar]
        | c1 :: r1 =>
            if validFirstCont b c1 then
              match r1 with
              | [] => [replacementChar]
              | c2 :: r2 =>
                  if isCont c2 then
                    match r2 with
                    | [] => [replacementChar]
                    | c3 :: r3 =>
                        if isCont c3 then
                          Char.ofNat ((b - 0xF0) * 262144 + (c1 - 0x80) * 4096 +
                            (c2 - 0x80) * 64 + (c3 - 0x80)) :: utf8_lossy_go fuel r3
                        else replacementChar :: utf8_lossy_go fuel r2
                  else replacementChar :: utf8_lossy_go fuel r1
            else replacementChar :: utf8_lossy_go fuel rest
      else replacementChar :: utf8_lossy_go fuel rest

/-- `String::from_utf8_lossy`. -/
def from_utf8_lossy (l : List Nat) : String := String.mk (utf8_lossy_go l.length l)

/-- src/server/src/main.rs lines 332-344: `handle_client` reads at most
one 1024-byte buffer from the TLS stream, lossily decodes it and hands
the text to `handle_json`. -/
def handle_client (from_str : String → Option Json) (peer_addr : String)
    (input : List Nat) : List SrvEffect :=
  handle_json from_str peer_addr (from_utf8_lossy (input.take 1024))

/-- src/server/src/main.rs lines 328-329: `register_client` has an empty
body. -/
def register_client : List SrvEffect := []

theorem handle_json_effects (from_str : String → Option Json) (peer data : String)
    (e : SrvEffect) (he : e ∈ handle_json from_str peer data) :
    (∃ v, e = .printValue v) ∨ e = .logWarn peer := by
  unfold handle_json at he
  cases hfs : from_str data with
  | none =>
      simp only [hfs, List.mem_singleton] at he
      exact Or.inr he
  | some v =>
      simp only [hfs] at he
      by_cases hp : json_eq_str (jsonIndexStr v "product") "Luminum Client"
      · rw [if_pos hp] at he
        cases hg : jsonGet (jsonIndexStr v "data") "content" with
        | none => simp [hg] at he
        | some content =>
            simp only [hg, List.mem_singleton] at he
            exact Or.inl ⟨content, he⟩
      · rw [if_neg hp] at he
        simp at he

/-- Claim C1: on any received frame the server produces no reply and no
database write — it only prints or logs — and `register_client`, the
function that would validate the enrollment key, allocate a UID and
persist the registration, has an empty body. -/
theorem c1_register_unimplemented (from_str : String → Option Json)
    (peer_addr : String) (input : List Nat) (e : SrvEffect)
    (he : e ∈ handle_client from_str peer_addr input) :
    (∀ m, e ≠ .sendReply m) ∧ (∀ k v, e ≠ .dbWrite k v) ∧
    register_client = ([] : List SrvEffect) := by
  have h := handle_json_effects from_str peer_addr
    (from_utf8_lossy (input.take 1024)) e he
  refine ⟨?_, ?_, rfl⟩
  · rintro m rfl
    rcases h with ⟨v, hv⟩ | hv <;> simp at hv
  · rintro k v rfl
    rcases h with ⟨v', hv⟩ | hv <;> simp at hv

/-- A JSON parser behavior that rejects every input. -/
def alwaysNone : String → Option Json := fun _ => none

/-- Witness for claim C1 at concrete inputs: the malformed-data warning
is produced, and it is neither a reply nor a database write. -/
theorem c1_register_unimplemented_witness :
    SrvEffect.logWarn "10.0.0.5:50000" ∈
      handle_client alwaysNone "10.0.0.5:50000" [123] ∧
    ((∀ m, SrvEffect.logWarn "10.0.0.5:50000" ≠ SrvEffect.sendReply m) ∧
      (∀ k v, SrvEffect.logWarn "10.0.0.5:50000" ≠ SrvEffect.dbWrite k v) ∧
      register_client = ([] : List SrvEffect)) :=
  ⟨by simp [handle_client, handle_json, alwaysNone],
   c1_register_unimplemented alwaysNone "10.0.0.5:50000" [123] _
     (by simp [handle_client, handle_json, alwaysNone])⟩

/-! ### The client's send path: `rmp_serde::to_vec_named` (MessagePack) -/

/-- UTF-8 encoding of one scalar value. -/
def utf8EncodeChar (c : Char) : List Nat :=
  let n := c.toNat
  if n < 0x80 then [n]
  else if n < 0x800 then [0xC0 + n / 64, 0x80 + n % 64]
  else if n < 0x10000 then [0xE0 + n / 4096, 0x80 + (n / 64) % 64, 0x80 + n % 64]
  else [0xF0 + n / 262144, 0x80 + (n / 4096) % 64, 0x80 + (n / 64) % 64, 0x80 + n % 64]

/-- UTF-8 bytes of a string. -/
def utf8Encode (s : String) : List Nat := (s.toList.map utf8EncodeChar).flatten

/-- MessagePack string: fixstr / str8 / str16 / str32 header then the
UTF-8 bytes. -/
def mpStr (s : String) : List Nat :=
  let bytes := utf8Encode s
  let n := bytes.length
  if n < 32 then (0xA0 + n) :: bytes
  else if n < 256 then 0xD9 :: n :: bytes
  else if n < 65536 then 0xDA :: n / 256 :: n % 256 :: bytes
  else 0xDB :: n / 16777216 % 256 :: n / 65536 % 256 :: n / 256 % 256 :: n % 256 :: bytes

/-- serde `Option` fields: `None` is MessagePack nil, `Some s` the bare
string. -/
def mpOptStr : Option String → List Nat
  | none => [0xC0]
  | some s => mpStr s

/-- `to_vec_named` of a `MessageData`: a 7-entry fixmap (`0x87`) of the
named fields in declaration order. -/
def mpMessageData (d : MessageData) : List Nat :=
  0x87 :: (mpStr "serverkey" ++ mpOptStr d.serverkey ++
    mpStr "hostname" ++ mpOptStr d.hostname ++
    mpStr "uid" ++ mpOptStr d.uid ++
    mpStr "osplat" ++ mpOptStr d.osplat ++
    mpStr "osver" ++ mpOptStr d.osver ++
    mpStr "ipv4" ++ mpOptStr d.ipv4 ++
    mpStr "ipv6" ++ mpOptStr d.ipv6)

/-- `to_vec_named` of a `MessageContent`: a 4-entry fixmap (`0x84`). -/
def mpMessageContent (c : MessageContent) : List Nat :=
  0x84 :: (mpStr "module" ++ mpStr c.module ++
    mpStr "status" ++ mpStr c.status ++
    mpStr "action" ++ mpStr c.action ++
    mpStr "data" ++ (match c.data with | none => [0xC0] | some d => mpMessageData d))

/-- `rmp_serde::to_vec_named` of a `ClientMessage`: a 4-entry fixmap
(`0x84`) of `uid`, `product`, `version`, `content`. -/
def to_vec_named (m : ClientMessage) : List Nat :=
  0x84 :: (mpStr "uid" ++ mpStr m.uid ++
    mpStr "product" ++ mpStr m.product ++
    mpStr "version" ++ mpStr m.version ++
    mpStr "content" ++ mpMessageContent m.content)

/-- src/client/linux/src/main.rs lines 320-324: `write_to_server`
serializes a `ClientMessage` and writes the whole frame with one
`write_all`. -/
def write_to_server (data : ClientMessage) : List Nat := to_vec_named data

/-- serde_json whitespace skipping (space, tab, line feed, carriage
return). -/
def skipWs : List Char → List Char
  | c :: rest =>
      if c = ' ' ∨ c = '\t' ∨ c = '\n' ∨ c = '\r' then skipWs rest else c :: rest
  | [] => []

/-- The characters that can begin a JSON document under the grammar
`serde_json::from_str` parses. -/
def jsonStartChar (c : Char) : Bool :=
  c == '{' || c == '[' || c == '"' || c == '-' || c.isDigit ||
  c == 't' || c == 'f' || c == 'n'

theorem utf8_lossy_fixmap_head (x : List Nat) :
    utf8_lossy_go (x.length + 1) (0x84 :: x) =
      replacementChar :: utf8_lossy_go x.length x := by
  simp [utf8_lossy_go]

/-- Claim C2: the client's frame for any `ClientMessage` is MessagePack
(first byte `0x84`, a fixmap), which the server's receive path — lossy
UTF-8 decoding followed by a JSON parse — can never deserialize: for any
parser respecting the JSON grammar the parse fails and the server merely
logs the malformed-data warning, so no envelope equal to the sent message
is ever recovered. -/
theorem c2_client_frame_never_parses (from_str : String → Option Json)
    (hgrammar : ∀ s c rest, skipWs s.toList = c :: rest → jsonStartChar c = false →
      from_str s = none)
    (m : ClientMessage) (peer_addr : String) :
    from_str (from_utf8_lossy ((write_to_server m).take 1024)) = none ∧
    handle_client from_str peer_addr (write_to_server m) = [.logWarn peer_addr] := by
  have htake : (write_to_server m).take 1024 =
      0x84 :: (mpStr "uid" ++ mpStr m.uid ++ mpStr "product" ++ mpStr m.product ++
        mpStr "version" ++ mpStr m.version ++ mpStr "content" ++
        mpMessageContent m.content).take 1023 := rfl
  have hnone : from_str (from_utf8_lossy ((write_to_server m).take 1024)) = none := by
    apply hgrammar _ replacementChar
      (utf8_lossy_go ((mpStr "uid" ++ mpStr m.uid ++ mpStr "product" ++ mpStr m.product ++
        mpStr "version" ++ mpStr m.version ++ mpStr "content" ++
        mpMessageContent m.content).take 1023).length
        ((mpStr "uid" ++ mpStr m.uid ++ mpStr "product" ++ mpStr m.product ++
        mpStr "version" ++ mpStr m.version ++ mpStr "content" ++
        mpMessageContent m.content).take 1023))
    · rw [htake]
      show skipWs (utf8_lossy_go _ _) = _
      rw [List.length_cons, utf8_lossy_fixmap_head]
      simp [skipWs, replacementChar]
    · decide
  refine ⟨hnone, ?_⟩
  simp [handle_client, handle_json, hnone]

/-- The concrete registration frame a fresh client sends. -/
def sampleRegisterMsg : ClientMessage :=
  { product := "Luminum Client"
    version := VER
    uid := "NONE"
    content :=
      { module := "Client Core"
        status := "noreg"
        action := "register"
        data := some
          { hostname := some "host1"
            serverkey := some "tenantkey"
            uid := some "NONW"
            osplat := some "Linux"
            osver := some "Debian 12"
            ipv4 := some "192.168.1.1"
            ipv6 := some "" } } }

/-- Witness for claim C2 at concrete inputs. -/
theorem c2_client_frame_never_parses_witness :
    alwaysNone (from_utf8_lossy ((write_to_server sampleRegisterMsg).take 1024)) = none ∧
    handle_client alwaysNone "10.0.0.5:50000" (write_to_server sampleRegisterMsg) =
      [.logWarn "10.0.0.5:50000"] :=
  c2_client_frame_never_parses alwaysNone (fun _ _ _ _ _ => rfl)
    sampleRegisterMsg "10.0.0.5:50000"

/-! ## Claim C5: the magic_crypt round trip (src/server/src/main.rs
lines 534-538 and 242-264)

`new_magic_crypt!(key, 256)` builds an AES-256-CBC cipher whose 32-byte
key and 16-byte IV are derived deterministically from the key string by
hashing (SHA-256 and MD5; no salt or nonce is drawn), so derivation is a
pure function of the server key and the same key always yields the same
cipher configuration.  `encrypt_str_to_base64` (line 536, `seal`)
PKCS#7-pads the plaintext bytes to the 16-byte block size, encrypts in
CBC mode and base64-encodes the ciphertext; `decrypt_base64_to_string`
(lines 244 and 264, `open`) inverts the three layers.  The embedding
works on plaintext bytes (a Rust `String` is its UTF-8 byte sequence)
and is parameterized by the hash functions and by the keyed AES-256
block permutation, constrained to be a length- and byte-preserving
inverse pair on 16-byte blocks. -/

/-- PKCS#7 padding to the 16-byte AES block size. -/
def pkcs7_pad (l : List Nat) : List Nat :=
  let k := 16 - l.length % 16
  l ++ List.replicate k k

/-- PKCS#7 unpadding: the last byte `k` must be `1..16` and the last `k`
bytes must all equal `k`. -/
def pkcs7_unpad (l : List Nat) : Option (List Nat) :=
  match l.reverse with
  | [] => none
  | k :: _ =>
      if 1 ≤ k ∧ k ≤ 16 ∧ k ≤ l.length ∧ (l.drop (l.length - k)).all (fun x => x == k) then
        some (l.take (l.length - k))
      else none

/-- Bytewise xor of two equal-length blocks. -/
def xorBytes (a b : List Nat) : List Nat := List.zipWith (fun x y => x ^^^ y) a b

/-- CBC encryption over a block list: each plaintext block is xored with
the previous ciphertext block (initially the IV) before the block
permutation. -/
def cbc_encrypt (enc : List Nat → List Nat) (iv : List Nat) :
    List (List Nat) → List (List Nat)
  | [] => []
  | b :: bs =>
      let c := enc (xorBytes b iv)
      c :: cbc_encrypt enc c bs

/-- CBC decryption over a block list. -/
def cbc_decrypt (dec : List Nat → List Nat) (iv : List Nat) :
    List (List Nat) → List (List Nat)
  | [] => []
  | c :: cs => xorBytes (dec c) iv :: cbc_decrypt dec c cs

/-- Split a byte list into 16-byte blocks. -/
def chunk16 (l : List Nat) : List (List Nat) :=
  if h : l = [] then [] else l.take 16 :: chunk16 (l.drop 16)
termination_by l.length
decreasing_by
  simp only [List.length_drop]
  exact Nat.sub_lt (List.length_pos.mpr h) (by norm_num)

/-- The base64 alphabet. -/
def b64alphabet : List Char :=
  ['A', 'B', 'C', 'D', 'E', 'F', 'G', 'H', 'I', 'J', 'K', 'L', 'M',
   'N', 'O', 'P', 'Q', 'R', 'S', 'T', 'U', 'V', 'W', 'X', 'Y', 'Z',
   'a', 'b', 'c', 'd', 'e', 'f', 'g', 'h', 'i', 'j', 'k', 'l', 'm',
   'n', 'o', 'p', 'q', 'r', 's', 't', 'u', 'v', 'w', 'x', 'y', 'z',
   '0', '1', '2', '3', '4', '5', '6', '7', '8', '9', '+', '/']

/-- Encode one 6-bit value. -/
def enc64 (n : Nat) : Char := b64alphabet.getD n 'A'

/-- Index of a character in a list. -/
def b64index : List Char → Char → Option Nat
  | [], _ => none
  | a :: rest, c => if a = c then some 0 else (b64index rest c).map (· + 1)

/-- Decode one base64 character. -/
def dec64 (c : Char) : Option Nat := b64index b64alphabet c

/-- Base64 encoding with `=` padding. -/
def b64encode : List Nat → List Char
  | [] => []
  | [a] => [enc64 (a / 4), enc64 (a % 4 * 16), '=', '=']
  | [a, b] => [enc64 (a / 4), enc64 (a % 4 * 16 + b / 16), enc64 (b % 16 * 4), '=']
  | a :: b :: c :: rest =>
      enc64 (a / 4) :: enc64 (a % 4 * 16 + b / 16) :: enc64 (b % 16 * 4 + c / 64) ::
        enc64 (c % 64) :: b64encode rest

/-- Base64 decoding, rejecting anything but whole `=`-padded quads. -/
def b64decode : List Char → Option (List Nat)
  | [] => some []
  | c0 :: c1 :: c2 :: c3 :: rest =>
      match dec64 c0, dec64 c1 with
      | some v0, some v1 =>
          if c2 = '=' then
            if c3 = '=' ∧ rest = [] then some [v0 * 4 + v1 / 16] else none
          else
            match dec64 c2 with
            | some v2 =>
                if c3 = '=' then
                  if rest = [] then some [v0 * 4 + v1 / 16, v1 % 16 * 16 + v2 / 4]
                  else none
                else
                  match dec64 c3 with
                  | some v3 =>
                      match b64decode rest with
                      | some r => some ((v0 * 4 + v1 / 16) :: (v1 % 16 * 16 + v2 / 4) ::
                          (v2 % 4 * 64 + v3) :: r)
                      | none => none
                  | none => none
            | none => none
      | _, _ => none
  | _ => none

/-- `derive_cipher`: `new_magic_crypt!(k, 256)` hashes the key string
into the AES-256 key (SHA-256) and the CBC IV (MD5); a pure function of
`k`, so the derivation is deterministic. -/
def derive_cipher (sha256 md5 : String → List Nat) (k : String) : List Nat × List Nat :=
  (sha256 k, md5 k)

/-- `encrypt_str_to_base64` at byte level: pad, CBC-encrypt under the
derived key and IV, base64. -/
def mc_seal (aesEnc : List Nat → List Nat → List Nat) (cipher : List Nat × List Nat)
    (s : List Nat) : List Char :=
  b64encode ((cbc_encrypt (aesEnc cipher.1) cipher.2 (chunk16 (pkcs7_pad s))).flatten)

/-- `decrypt_base64_to_string` at byte level: base64-decode,
CBC-decrypt, unpad; fails on corrupt input. -/
def mc_open (aesDec : List Nat → List Nat → List Nat) (cipher : List Nat × List Nat)
    (t : List Char) : Option (List Nat) :=
  match b64decode t with
  | none => none
  | some bs => pkcs7_unpad ((cbc_decrypt (aesDec cipher.1) cipher.2 (chunk16 bs)).flatten)

theorem dec64_enc64 : ∀ v < 64, dec64 (enc64 v) = some v := by decide

theorem enc64_ne_pad : ∀ v < 64, ¬(enc64 v = '=') := by decide

theorem b64decode_b64encode : ∀ l : List Nat, (∀ x ∈ l, x < 256) →
    b64decode (b64encode l) = some l
  | [], _ => rfl
  | [a], h => by
      have ha : a < 256 := h a (by simp)
      simp only [b64encode, b64decode, dec64_enc64 (a / 4) (by omega),
        dec64_enc64 (a % 4 * 16) (by omega)]
      simp only [if_pos rfl, and_self, if_true, Option.some.injEq, List.cons.injEq, and_true]
      omega
  | [a, b], h => by
      have ha : a < 256 := h a (by simp)
      have hb : b < 256 := h b (by simp)
      have hne := enc64_ne_pad (b % 16 * 4) (by omega)
      simp only [b64encode, b64decode, dec64_enc64 (a / 4) (by omega),
        dec64_enc64 (a % 4 * 16 + b / 16) (by omega), if_neg hne,
        dec64_enc64 (b % 16 * 4) (by omega)]
      simp
      constructor <;> omega
  | [a, b, c], h => by
      have ha : a < 256 := h a (by simp)
      have hb : b < 256 := h b (by simp)
      have hc : c < 256 := h c (by simp)
      have hne2 := enc64_ne_pad (b % 16 * 4 + c / 64) (by omega)
      have hne3 := enc64_ne_pad (c % 64) (by omega)
      simp only [b64encode, b64decode, dec64_enc64 (a / 4) (by omega),
        dec64_enc64 (a % 4 * 16 + b / 16) (by omega), if_neg hne2,
        dec64_enc64 (b % 16 * 4 + c / 64) (by omega), if_neg hne3,
        dec64_enc64 (c % 64) (by omega), Option.some.injEq, List.cons.injEq]
      refine ⟨by omega, by omega, by omega, trivial⟩
  | a :: b :: c :: d :: rest, h => by
      have ha : a < 256 := h a (by simp)
      have hb : b < 256 := h b (by simp)
      have hc : c < 256 := h c (by simp)
      have hne2 := enc64_ne_pad (b % 16 * 4 + c / 64) (by omega)
      have hne3 := enc64_ne_pad (c % 64) (by omega)
      have ih := b64decode_b64encode (d :: rest) (fun x hx => h x (by simp [hx]))
      simp only [b64encode] at ih ⊢
      simp only [b64decode, dec64_enc64 (a / 4) (by omega),
        dec64_enc64 (a % 4 * 16 + b / 16) (by omega), if_neg hne2,
        dec64_enc64 (b % 16 * 4 + c / 64) (by omega), if_neg hne3,
        dec64_enc64 (c % 64) (by omega), ih, Option.some.injEq, List.cons.injEq]
      refine ⟨by omega, by omega, by omega, trivial⟩

theorem pkcs7_unpad_append (l : List Nat) (k : Nat) (hk1 : 1 ≤ k) (hk16 : k ≤ 16) :
    pkcs7_unpad (l ++ List.replicate k k) = some l := by
  obtain ⟨k', rfl⟩ : ∃ k', k = k' + 1 := ⟨k - 1, by omega⟩
  have hrev : (l ++ List.replicate (k' + 1) (k' + 1)).reverse =
      (k' + 1) :: (List.replicate k' (k' + 1) ++ l.reverse) := by
    rw [List.reverse_append, List.reverse_replicate, List.replicate_succ, List.cons_append]
  have hlen : (l ++ List.replicate (k' + 1) (k' + 1)).length = l.length + (k' + 1) := by
    simp
  have hsub : (l ++ List.replicate (k' + 1) (k' + 1)).length - (k' + 1) = l.length := by
    omega
  simp only [pkcs7_unpad, hrev]
  rw [if_pos]
  · rw [hsub, List.take_left]
  · refine ⟨by omega, by omega, by rw [hlen]; omega, ?_⟩
    rw [hsub, List.drop_left]
    refine List.all_eq_true.mpr ?_
    intro x hx
    rw [List.eq_of_mem_replicate hx]
    exact beq_self_eq_true _

theorem pkcs7_unpad_pad (l : List Nat) : pkcs7_unpad (pkcs7_pad l) = some l := by
  have h1 : l.length % 16 < 16 := Nat.mod_lt _ (by norm_num)
  exact pkcs7_unpad_append l (16 - l.length % 16) (by omega) (by omega)

theorem chunk16_flatten : ∀ bs : List (List Nat), (∀ b ∈ bs, b.length = 16) →
    chunk16 bs.flatten = bs
  | [], _ => by rw [List.flatten_nil, chunk16]; simp
  | b :: bs, h => by
      have hb : b.length = 16 := h b (by simp)
      have hne : b ++ bs.flatten ≠ [] := by
        intro hcontra
        have := congrArg List.length hcontra
        simp [hb] at this
      rw [List.flatten_cons, chunk16, dif_neg hne, List.take_left' hb, List.drop_left' hb,
        chunk16_flatten bs (fun x hx => h x (by simp [hx]))]

theorem chunk16_spec (l : List Nat) (hdvd : 16 ∣ l.length) :
    (∀ c ∈ chunk16 l, c.length = 16) ∧ (chunk16 l).flatten = l ∧
    (∀ c ∈ chunk16 l, ∀ x ∈ c, x ∈ l) := by
  by_cases h : l = []
  · subst h; rw [chunk16]; simp
  · have hpos : 0 < l.length := List.length_pos.mpr h
    have hlen : 16 ≤ l.length := by
      rcases hdvd with ⟨c, hc⟩
      rcases Nat.eq_zero_or_pos c with rfl | hcpos
      · omega
      · calc 16 = 16 * 1 := by norm_num
          _ ≤ 16 * c := Nat.mul_le_mul_left 16 hcpos
          _ = l.length := hc.symm
    have hdvd' : 16 ∣ (l.drop 16).length := by
      rw [List.length_drop]
      exact Nat.dvd_sub' hdvd ⟨1, by norm_num⟩
    have ih := chunk16_spec (l.drop 16) hdvd'
    rw [chunk16, dif_neg h]
    refine ⟨?_, ?_, ?_⟩
    · intro c hc
      rcases List.mem_cons.mp hc with rfl | hc'
      · rw [List.length_take]; omega
      · exact ih.1 c hc'
    · rw [List.flatten_cons, ih.2.1, List.take_append_drop]
    · intro c hc x hx
      rcases List.mem_cons.mp hc with rfl | hc'
      · exact List.take_subset _ _ hx
      · exact List.drop_subset _ _ (ih.2.2 c hc' x hx)
termination_by l.length
decreasing_by
  simp only [List.length_drop]
  omega

theorem xorBytes_cancel : ∀ (a b : List Nat), a.length = b.length →
    xorBytes (xorBytes a b) b = a
  | [], [], _ => rfl
  | [], _ :: _, h => by simp at h
  | _ :: _, [], h => by simp at h
  | x :: a, y :: b, h => by
      simp only [xorBytes, List.zipWith_cons_cons, List.cons.injEq]
      refine ⟨Nat.xor_cancel_right y x, ?_⟩
      exact xorBytes_cancel a b (by simpa using h)

theorem xorBytes_bound : ∀ (a b : List Nat), (∀ x ∈ a, x < 256) → (∀ x ∈ b, x < 256) →
    ∀ y ∈ xorBytes a b, y < 256
  | [], _, _, _ => by simp [xorBytes]
  | _ :: _, [], _, _ => by simp [xorBytes]
  | x :: a, y :: b, ha, hb => by
      intro z hz
      simp only [xorBytes, List.zipWith_cons_cons, List.mem_cons] at hz
      rcases hz with rfl | hz
      · have h1 : x < 2 ^ 8 := by have := ha x (by simp); omega
        have h2 : y < 2 ^ 8 := by have := hb y (by simp); omega
        have := Nat.xor_lt_two_pow h1 h2
        omega
      · exact xorBytes_bound a b (fun u hu => ha u (by simp [hu]))
          (fun u hu => hb u (by simp [hu])) z hz

theorem cbc_decrypt_encrypt (enc dec : List Nat → List Nat)
    (hinv : ∀ b, b.length = 16 → dec (enc b) = b)
    (hlen : ∀ b, b.length = 16 → (enc b).length = 16) :
    ∀ (ps : List (List Nat)) (iv : List Nat), iv.length = 16 →
      (∀ b ∈ ps, b.length = 16) →
      cbc_decrypt dec iv (cbc_encrypt enc iv ps) = ps
  | [], _, _, _ => rfl
  | b :: ps, iv, hiv, hps => by
      have hb : b.length = 16 := hps b (by simp)
      have hxlen : (xorBytes b iv).length = 16 := by
        simp [xorBytes, hb, hiv]
      have hclen : (enc (xorBytes b iv)).length = 16 := hlen _ hxlen
      simp only [cbc_encrypt, cbc_decrypt, List.cons.injEq]
      refine ⟨?_, ?_⟩
      · rw [hinv _ hxlen]
        exact xorBytes_cancel b iv (by rw [hb, hiv])
      · exact cbc_decrypt_encrypt enc dec hinv hlen ps _ hclen
          (fun x hx => hps x (by simp [hx]))

theorem cbc_encrypt_blocks (enc : List Nat → List Nat)
    (hlen : ∀ b, b.length = 16 → (enc b).length = 16)
    (hbound : ∀ b, b.length = 16 → (∀ x ∈ b, x < 256) → ∀ y ∈ enc b, y < 256) :
    ∀ (ps : List (List Nat)) (iv : List Nat), iv.length = 16 → (∀ x ∈ iv, x < 256) →
      (∀ b ∈ ps, b.length = 16 ∧ ∀ x ∈ b, x < 256) →
      ∀ c ∈ cbc_encrypt enc iv ps, c.length = 16 ∧ ∀ y ∈ c, y < 256
  | [], _, _, _, _ => by simp [cbc_encrypt]
  | b :: ps, iv, hiv, hivb, hps => by
      obtain ⟨hb, hbB⟩ := hps b (by simp)
      have hxlen : (xorBytes b iv).length = 16 := by simp [xorBytes, hb, hiv]
      have hxB : ∀ x ∈ xorBytes b iv, x < 256 := xorBytes_bound b iv hbB hivb
      have hclen : (enc (xorBytes b iv)).length = 16 := hlen _ hxlen
      have hcB : ∀ y ∈ enc (xorBytes b iv), y < 256 := hbound _ hxlen hxB
      intro c hc
      simp only [cbc_encrypt, List.mem_cons] at hc
      rcases hc with rfl | hc'
      · exact ⟨hclen, hcB⟩
      · exact cbc_encrypt_blocks enc hlen hbound ps _ hclen hcB
          (fun x hx => hps x (by simp [hx])) c hc'

/-- Claim C5: for every plaintext byte sequence `S` and server key `K`,
`mc_open` of `mc_seal` under the cipher derived from `K` returns `S`,
for any AES-256 block permutation pair that is a length- and
byte-preserving inverse on 16-byte blocks and any 16-byte derived IV;
`derive_cipher` itself is a pure function of `K`, hence deterministic. -/
theorem c5_vault_roundtrip (sha256 md5 : String → List Nat)
    (aesEnc aesDec : List Nat → List Nat → List Nat) (K : String)
    (hinv : ∀ b, b.length = 16 → aesDec (sha256 K) (aesEnc (sha256 K) b) = b)
    (hlen : ∀ b, b.length = 16 → (aesEnc (sha256 K) b).length = 16)
    (hbound : ∀ b, b.length = 16 → (∀ x ∈ b, x < 256) →
      ∀ y ∈ aesEnc (sha256 K) b, y < 256)
    (hiv : (md5 K).length = 16) (hivb : ∀ x ∈ md5 K, x < 256)
    (S : List Nat) (hS : ∀ x ∈ S, x < 256) :
    mc_open aesDec (derive_cipher sha256 md5 K)
      (mc_seal aesEnc (derive_cipher sha256 md5 K) S) = some S := by
  have hpadlen : 16 ∣ (pkcs7_pad S).length := by
    simp only [pkcs7_pad, List.length_append, List.length_replicate]
    omega
  obtain ⟨hchunklen, hchunkflat, hchunkmem⟩ := chunk16_spec (pkcs7_pad S) hpadlen
  have hpadB : ∀ x ∈ pkcs7_pad S, x < 256 := by
    intro x hx
    rcases List.mem_append.mp hx with hxs | hxr
    · exact hS x hxs
    · have := List.eq_of_mem_replicate hxr
      omega
  have hblocks : ∀ b ∈ chunk16 (pkcs7_pad S), b.length = 16 ∧ ∀ x ∈ b, x < 256 :=
    fun b hb => ⟨hchunklen b hb, fun x hx => hpadB x (hchunkmem b hb x hx)⟩
  have hct := cbc_encrypt_blocks (aesEnc (sha256 K)) hlen hbound
    (chunk16 (pkcs7_pad S)) (md5 K) hiv hivb hblocks
  have hctB : ∀ x ∈ (cbc_encrypt (aesEnc (sha256 K)) (md5 K)
      (chunk16 (pkcs7_pad S))).flatten, x < 256 := by
    intro x hx
    obtain ⟨c, hc, hxc⟩ := List.mem_flatten.mp hx
    exact (hct c hc).2 x hxc
  unfold mc_seal mc_open derive_cipher
  rw [b64decode_b64encode _ hctB]
  show pkcs7_unpad _ = some S
  rw [chunk16_flatten _ (fun c hc => (hct c hc).1)]
  rw [cbc_decrypt_encrypt (aesEnc (sha256 K)) (aesDec (sha256 K)) hinv hlen _ (md5 K)
    hiv (fun b hb => (hblocks b hb).1)]
  rw [hchunkflat]
  exact pkcs7_unpad_pad S

/-- A stand-in SHA-256: 32 zero bytes for every input. -/
def zeroSha : String → List Nat := fun _ => List.replicate 32 0

/-- A stand-in MD5: 16 zero bytes for every input. -/
def zeroMd5 : String → List Nat := fun _ => List.replicate 16 0

/-- A keyed block permutation that is its own inverse. -/
def idBlock : List Nat → List Nat → List Nat := fun _ b => b

/-- Witness for claim C5 at concrete inputs. -/
theorem c5_vault_roundtrip_witness :
    mc_open idBlock (derive_cipher zeroSha zeroMd5 "serverkey")
      (mc_seal idBlock (derive_cipher zeroSha zeroMd5 "serverkey") [104, 105]) =
      some [104, 105] :=
  c5_vault_roundtrip zeroSha zeroMd5 idBlock idBlock "serverkey"
    (fun _ _ => rfl) (fun _ h => h) (fun _ _ h y hy => h y hy)
    (by decide) (by decide) [104, 105] (by decide)

end Luminum
